import Mathlib

/-!
Shallow embedding of the Rust-ac auto-clicker core:
the interval scheduler (`src/mouse_controller.rs`) and the hotkey
edge-detection state machine (`src/hotkey_manager.rs`,
`src/config.rs`).  Time is modelled in milliseconds as `Nat`;
OS interactions (key state, hotkey registration, the event channel)
are explicit environment parameters.
-/

/-- `config.rs`: `enum MouseButton { Left, Right }`. -/
inductive MouseButton where
  | Left
  | Right
deriving DecidableEq, Repr

/-- One spawned click worker: the button it clicks, its period
(`interval_ms * thread_count`, the `interval` local of the worker
closure) and its next scheduled fire instant (`next_click`). -/
structure WorkerSpec where
  button : MouseButton
  interval : Nat
  next_click : Nat
deriving DecidableEq, Repr

/-- `mouse_controller.rs`: the `MouseController` struct.  The atomics
are modelled as plain fields (single observer), `Instant` as `Nat`
milliseconds. -/
structure MouseController where
  is_running : Bool
  click_count : Nat
  handles : List WorkerSpec
  start_time : Option Nat
deriving DecidableEq, Repr

/-- `MouseController::new`. -/
def MouseController.new : MouseController :=
  { is_running := false, click_count := 0, handles := [], start_time := none }

/-- The thread-count tier selection inside `start_clicking`
(lines 48-56 of `mouse_controller.rs`). -/
def thread_count (interval_ms : Nat) : Nat :=
  if 20 ≤ interval_ms then 1
  else if 5 ≤ interval_ms then 2
  else if 2 ≤ interval_ms then 4
  else 8

/-- `MouseController::start_clicking`, with `now` the current instant.
Mirrors the source order: the early return when already running, then
the stores to `is_running`, `click_count`, `start_time`, then the
`interval_ms == 0` guard, then worker spawning. -/
def start_clicking (c : MouseController) (button : MouseButton)
    (interval_ms now : Nat) : MouseController :=
  if c.is_running then c
  else
    let c1 : MouseController :=
      { c with is_running := true, click_count := 0, start_time := some now }
    if interval_ms = 0 then c1
    else
      let n := thread_count interval_ms
      { c1 with
        handles := c1.handles ++ (List.range n).map (fun thread_id =>
          { button := button
            interval := interval_ms * n
            next_click := now + interval_ms * thread_id }) }

/-- `MouseController::stop_clicking`: clear the flag and drain (join)
every worker handle. -/
def stop_clicking (c : MouseController) : MouseController :=
  { c with is_running := false, handles := [] }

/-- `MouseController::get_click_count`. -/
def get_click_count (c : MouseController) : Nat :=
  c.click_count

/-- `MouseController::get_running_time` at instant `now`
(`start.elapsed()`). -/
def get_running_time (c : MouseController) (now : Nat) : Option Nat :=
  c.start_time.map (fun s => now - s)

/-- `MouseController::get_cps` at instant `now`; `f64` arithmetic is
modelled over `ℚ` (elapsed milliseconds over 1000). -/
def get_cps (c : MouseController) (now : Nat) : ℚ :=
  match get_running_time c now with
  | some d =>
    let seconds : ℚ := (d : ℚ) / 1000
    if 0 < seconds then (get_click_count c : ℚ) / seconds else 0
  | none => 0

/-- One iteration of the worker loop body at instant `now`, acting on
the worker's `next_click`; returns the new `next_click` and how many
clicks were injected (0 or 1).  Mirrors lines 78-89 of
`mouse_controller.rs`: fire when `now >= next_click`, advance by the
period, and resynchronize to `now + interval` when still behind. -/
def worker_step (interval now nc : Nat) : Nat × Nat :=
  if nc ≤ now then
    (if nc + interval < now then now + interval else nc + interval, 1)
  else (nc, 0)

/-- The instants at which a worker with period `interval` and initial
`next_click = nc` fires, when its loop iterations observe the clock at
the successive instants `ts`. -/
def worker_fires (interval : Nat) : Nat → List Nat → List Nat
  | _, [] => []
  | nc, t :: ts =>
    if (worker_step interval t nc).2 = 1 then
      t :: worker_fires interval (worker_step interval t nc).1 ts
    else worker_fires interval (worker_step interval t nc).1 ts

/-- Run one worker loop iteration of a spawned worker at instant
`now`. -/
def tick_worker (now : Nat) (w : WorkerSpec) : WorkerSpec × Nat :=
  let r := worker_step w.interval now w.next_click
  ({ w with next_click := r.1 }, r.2)

/-- One system step at instant `now`: every live worker observes the
clock once; click counts accumulate into the shared counter.  Workers
only run while `is_running` holds (the loop condition at line 77). -/
def system_tick (c : MouseController) (now : Nat) : MouseController :=
  if c.is_running then
    let stepped := c.handles.map (tick_worker now)
    { c with
      handles := stepped.map Prod.fst
      click_count := c.click_count + (stepped.map Prod.snd).sum }
  else c

/-- Iterated system steps at the instants `ts`. -/
def run_ticks (c : MouseController) : List Nat → MouseController
  | [] => c
  | t :: ts => run_ticks (system_tick c t) ts

/-! ### Hotkey configuration (`config.rs`) -/

/-- `config.rs`: `struct HotkeyConfig { modifiers: Vec<String>, key: String }`. -/
structure HotkeyConfig where
  modifiers : List String
  key : String
deriving DecidableEq, Repr

/-- The `global_hotkey` modifier bitset, restricted to the four flags
`config.rs` ever sets. -/
structure Modifiers where
  control : Bool := false
  alt : Bool := false
  shift : Bool := false
  sup : Bool := false
deriving DecidableEq, Repr

/-- The `global_hotkey` key codes named by `config.rs`. -/
inductive Code where
  | F1 | F2 | F3 | F4 | F5 | F6 | F7 | F8 | F9 | F10 | F11 | F12
  | Space | Enter | Escape | Tab | Home | End | PageUp | PageDown
  | Insert | Delete | CapsLock | NumLock | ScrollLock
  | KeyA | KeyB | KeyC | KeyD | KeyE | KeyF | KeyG | KeyH | KeyI
  | KeyJ | KeyK | KeyL | KeyM | KeyN | KeyO | KeyP | KeyQ | KeyR
  | KeyS | KeyT | KeyU | KeyV | KeyW | KeyX | KeyY | KeyZ
deriving DecidableEq, Repr

/-- One turn of the modifier-accumulation loop in
`HotkeyConfig::to_global_hotkey`. -/
def add_modifier (m : Modifiers) (s : String) : Except String Modifiers :=
  match s with
  | "Ctrl" => .ok { m with control := true }
  | "Alt" => .ok { m with alt := true }
  | "Shift" => .ok { m with shift := true }
  | "Win" => .ok { m with sup := true }
  | _ => .error ("未知修饰键: " ++ s)

/-- The modifier-accumulation loop of `to_global_hotkey` (early return
on the first unknown modifier). -/
def parse_modifiers : Modifiers → List String → Except String Modifiers
  | m, [] => .ok m
  | m, s :: rest =>
    match add_modifier m s with
    | .ok m2 => parse_modifiers m2 rest
    | .error e => .error e

/-- The key-name match of `to_global_hotkey`. -/
def key_code (key : String) : Except String Code :=
  match key with
  | "F1" => .ok .F1 | "F2" => .ok .F2 | "F3" => .ok .F3 | "F4" => .ok .F4
  | "F5" => .ok .F5 | "F6" => .ok .F6 | "F7" => .ok .F7 | "F8" => .ok .F8
  | "F9" => .ok .F9 | "F10" => .ok .F10 | "F11" => .ok .F11 | "F12" => .ok .F12
  | "Space" => .ok .Space | "Enter" => .ok .Enter | "Esc" => .ok .Escape
  | "Tab" => .ok .Tab | "Home" => .ok .Home | "End" => .ok .End
  | "PageUp" => .ok .PageUp | "PageDown" => .ok .PageDown
  | "Insert" => .ok .Insert | "Delete" => .ok .Delete
  | "CapsLock" => .ok .CapsLock | "NumLock" => .ok .NumLock
  | "ScrollLock" => .ok .ScrollLock
  | "A" => .ok .KeyA | "B" => .ok .KeyB | "C" => .ok .KeyC | "D" => .ok .KeyD
  | "E" => .ok .KeyE | "F" => .ok .KeyF | "G" => .ok .KeyG | "H" => .ok .KeyH
  | "I" => .ok .KeyI | "J" => .ok .KeyJ | "K" => .ok .KeyK | "L" => .ok .KeyL
  | "M" => .ok .KeyM | "N" => .ok .KeyN | "O" => .ok .KeyO | "P" => .ok .KeyP
  | "Q" => .ok .KeyQ | "R" => .ok .KeyR | "S" => .ok .KeyS | "T" => .ok .KeyT
  | "U" => .ok .KeyU | "V" => .ok .KeyV | "W" => .ok .KeyW | "X" => .ok .KeyX
  | "Y" => .ok .KeyY | "Z" => .ok .KeyZ
  | _ => .error ("未知按键: " ++ key)

/-- `HotkeyConfig::to_global_hotkey`: modifiers first (early return),
then the key. -/
def to_global_hotkey (cfg : HotkeyConfig) : Except String (Modifiers × Code) :=
  match parse_modifiers {} cfg.modifiers with
  | .error e => .error e
  | .ok mods =>
    match key_code cfg.key with
    | .error e => .error e
    | .ok code => .ok (mods, code)

/-- `HotkeyConfig::to_display_string`: `mod1+mod2+...+key`. -/
def to_display_string (cfg : HotkeyConfig) : String :=
  if cfg.modifiers.isEmpty then cfg.key
  else String.intercalate "+" cfg.modifiers ++ "+" ++ cfg.key

/-! ### Hotkey detector (`hotkey_manager.rs`) -/

/-- `hotkey_manager.rs`: `enum HotkeyAction`. -/
inductive HotkeyAction where
  | Toggle
  | HoldStart
  | HoldStop
deriving DecidableEq, Repr

/-- The `HotkeyManager` struct.  The OS registration handle and its id
are both modelled by the numeric id; the mpsc receiver is the queue of
pending event ids; `Instant` is `Nat` milliseconds. -/
structure HotkeyManager where
  toggle_hotkey : Option Nat
  toggle_hotkey_id : Option Nat
  is_key_pressed : Bool
  current_hotkey : Option HotkeyConfig
  last_poll_time : Nat
  pending_events : List Nat
deriving DecidableEq, Repr

/-- `HotkeyManager::new` (constructed at instant 0). -/
def HotkeyManager.new : HotkeyManager :=
  { toggle_hotkey := none, toggle_hotkey_id := none, is_key_pressed := false
    current_hotkey := none, last_poll_time := 0, pending_events := [] }

/-- `HotkeyManager::reset_key_state`: clear the edge flag and drain the
event queue. -/
def reset_key_state (m : HotkeyManager) : HotkeyManager :=
  { m with is_key_pressed := false, pending_events := [] }

/-- Environment of one `update_hotkeys` call: whether the OS-level
`manager.register` succeeds, and the id of the freshly built `HotKey`. -/
structure UpdateEnv where
  register_ok : Bool
  new_id : Nat
deriving DecidableEq, Repr

/-- `HotkeyManager::update_hotkeys`: unregister the old hotkey, clear
the stored id, reset key state, then parse and (attempt to) register
the new binding.  Note `current_hotkey` is assigned only on successful
registration. -/
def update_hotkeys (m : HotkeyManager) (toggle_config : HotkeyConfig)
    (env : UpdateEnv) : HotkeyManager × Except String Unit :=
  let m1 := { m with toggle_hotkey := none, toggle_hotkey_id := none }
  let m2 := reset_key_state m1
  match to_global_hotkey toggle_config with
  | .ok _ =>
    if env.register_ok then
      ({ m2 with
          toggle_hotkey_id := some env.new_id
          toggle_hotkey := some env.new_id
          current_hotkey := some toggle_config }, .ok ())
    else
      (m2, .error ("热键 " ++ to_display_string toggle_config ++
        " 已被占用，请尝试其他组合\n提示：可能与系统快捷键或其他应用冲突"))
  | .error e => (m2, .error ("热键配置错误: " ++ e))

/-- The `GetAsyncKeyState` query for the main key of a binding
(`is_key_currently_pressed`, lines 171-197): `vk c` tells whether
virtual-key code `c` is physically down. -/
def key_pressed_raw (vk : Nat → Bool) (key : String) : Bool :=
  match key with
  | "F1" => vk 0x70
  | "F2" => vk 0x71
  | "F3" => vk 0x72
  | "F4" => vk 0x73
  | "F5" => vk 0x74
  | "F6" => vk 0x75
  | "F7" => vk 0x76
  | "F8" => vk 0x77
  | "F9" => vk 0x78
  | "F10" => vk 0x79
  | "F11" => vk 0x7A
  | "F12" => vk 0x7B
  | "Space" => vk 0x20
  | "Enter" => vk 0x0D
  | "Esc" => vk 0x1B
  | "Tab" => vk 0x09
  | k =>
    if k.length = 1 then
      let ch := (k.toList.headD 'A').toUpper
      if ch.isAlpha then vk ch.toNat else false
    else false

/-- The modifier physical-state query (left/right variants OR-ed,
lines 204-223). -/
def modifier_pressed (vk : Nat → Bool) (modifier : String) : Bool :=
  match modifier with
  | "Ctrl" => vk 0x11 || vk 0xA2 || vk 0xA3
  | "Alt" => vk 0x12 || vk 0xA4 || vk 0xA5
  | "Shift" => vk 0x10 || vk 0xA0 || vk 0xA1
  | "Win" => vk 0x5B || vk 0x5C
  | _ => false

/-- Physical pressed-state of a stored binding: main key down and every
listed modifier down; `none` (no stored binding) is never pressed. -/
def config_pressed (cfg : Option HotkeyConfig) (vk : Nat → Bool) : Bool :=
  match cfg with
  | some c =>
    if key_pressed_raw vk c.key then
      c.modifiers.all (fun md => modifier_pressed vk md)
    else false
  | none => false

/-- `HotkeyManager::is_key_currently_pressed` — reads `current_hotkey`,
not the registration handle. -/
def is_key_currently_pressed (m : HotkeyManager) (vk : Nat → Bool) : Bool :=
  config_pressed m.current_hotkey vk

/-- `HotkeyManager::check_key_hold_state`: rising edge emits
`HoldStart`, falling edge emits `HoldStop`. -/
def check_key_hold_state (m : HotkeyManager) (vk : Nat → Bool) :
    HotkeyManager × Option HotkeyAction :=
  let p := is_key_currently_pressed m vk
  if p && !m.is_key_pressed then
    ({ m with is_key_pressed := true }, some .HoldStart)
  else if !p && m.is_key_pressed then
    ({ m with is_key_pressed := false }, some .HoldStop)
  else (m, none)

/-- `HotkeyManager::check_events` at instant `now` with physical key
state `vk`; the pending queue is whatever the receiver currently
holds.  Mirrors the source control flow: the 10ms-gated hold branch;
otherwise the event-driven toggle path (drain, confirm physically
down, fresh rising edge) followed by the 50ms-gated polling fallback. -/
def check_events (m : HotkeyManager) (hold_mode : Bool) (now : Nat)
    (vk : Nat → Bool) : HotkeyManager × Option HotkeyAction :=
  if hold_mode then
    if now - m.last_poll_time < 10 then (m, none)
    else
      let m1 := { m with last_poll_time := now, pending_events := [] }
      check_key_hold_state m1 vk
  else
    let event_triggered :=
      m.pending_events.any (fun id => m.toggle_hotkey_id == some id)
    let m1 := { m with pending_events := [] }
    let emit_event :=
      if event_triggered then
        is_key_currently_pressed m1 vk && !m1.is_key_pressed
      else false
    if emit_event then
      ({ m1 with is_key_pressed := true }, some .Toggle)
    else if 50 ≤ now - m1.last_poll_time then
      let m2 := { m1 with last_poll_time := now }
      let pressed_now := is_key_currently_pressed m2 vk
      if pressed_now && !m2.is_key_pressed then
        ({ m2 with is_key_pressed := true }, some .Toggle)
      else if !pressed_now && m2.is_key_pressed then
        ({ m2 with is_key_pressed := false }, none)
      else (m2, none)
    else (m1, none)

/-- One poll of the detector from the orchestrator's loop: the events
delivered since the previous poll land in the channel, then
`check_events` runs. -/
structure PollInput where
  hold_mode : Bool
  now : Nat
  events : List Nat
  vk : Nat → Bool

/-- Deliver a poll's fresh events into the queue and run
`check_events`. -/
def do_poll (m : HotkeyManager) (p : PollInput) :
    HotkeyManager × Option HotkeyAction :=
  check_events { m with pending_events := m.pending_events ++ p.events }
    p.hold_mode p.now p.vk

/-- Run a sequence of polls, collecting every emitted action. -/
def run_polls (m : HotkeyManager) : List PollInput →
    HotkeyManager × List HotkeyAction
  | [] => (m, [])
  | p :: ps =>
    let r := do_poll m p
    let rest := run_polls r.1 ps
    (rest.1, r.2.toList ++ rest.2)

/-- How many `Toggle` actions a list of emitted actions holds. -/
def toggle_total (acts : List HotkeyAction) : Nat :=
  acts.countP (fun a => a == HotkeyAction.Toggle)

/-! ### Scheduler lemmas -/

/-- A controller with no live workers never accumulates clicks under
any sequence of system steps. -/
theorem run_ticks_no_handles (ts : List Nat) :
    ∀ c : MouseController, c.handles = [] →
      (run_ticks c ts).click_count = c.click_count ∧
      (run_ticks c ts).handles = [] := by
  induction ts with
  | nil => exact fun c h => ⟨rfl, h⟩
  | cons t ts ih =>
    intro c h
    have hst : (system_tick c t).click_count = c.click_count ∧
        (system_tick c t).handles = [] := by
      unfold system_tick
      split
      · simp [h]
      · exact ⟨rfl, h⟩
    have hrec := ih (system_tick c t) hst.2
    rw [show run_ticks c (t :: ts) = run_ticks (system_tick c t) ts from rfl]
    exact ⟨hrec.1.trans hst.1, hrec.2⟩

theorem start_clicking_zero (c : MouseController) (b : MouseButton)
    (now : Nat) (hrun : c.is_running = false) :
    start_clicking c b 0 now =
      { c with is_running := true, click_count := 0, start_time := some now } := by
  unfold start_clicking
  rw [hrun]
  simp

theorem thread_count_ge20 (i : Nat) (h : 20 ≤ i) : thread_count i = 1 := by
  unfold thread_count
  rw [if_pos h]

theorem thread_count_5_19 (i : Nat) (h1 : 5 ≤ i) (h2 : i ≤ 19) :
    thread_count i = 2 := by
  unfold thread_count
  rw [if_neg (by omega), if_pos h1]

theorem thread_count_2_4 (i : Nat) (h1 : 2 ≤ i) (h2 : i ≤ 4) :
    thread_count i = 4 := by
  unfold thread_count
  rw [if_neg (by omega), if_neg (by omega), if_pos h1]

theorem thread_count_lt2 (i : Nat) (h : i < 2) : thread_count i = 8 := by
  unfold thread_count
  rw [if_neg (by omega), if_neg (by omega), if_neg (by omega)]

theorem start_clicking_spawn (c : MouseController) (b : MouseButton)
    (i now : Nat) (hrun : c.is_running = false) (hi : i ≠ 0) :
    (start_clicking c b i now).handles =
      c.handles ++ (List.range (thread_count i)).map (fun thread_id =>
        { button := b
          interval := i * thread_count i
          next_click := now + i * thread_id }) := by
  unfold start_clicking
  rw [hrun]
  simp [hi]

/-! ### Worker fire-time lemmas -/

theorem worker_step_fire_iff (interval t nc : Nat) :
    (worker_step interval t nc).2 = 1 ↔ nc ≤ t := by
  unfold worker_step
  split
  · next h => simpa using h
  · next h => simpa using h

theorem worker_step_nofire (interval t nc : Nat) (h : ¬ nc ≤ t) :
    worker_step interval t nc = (nc, 0) := by
  unfold worker_step
  rw [if_neg h]

theorem worker_step_next_ge (interval t nc : Nat) :
    nc ≤ (worker_step interval t nc).1 := by
  unfold worker_step
  split
  · next h => dsimp only; split <;> omega
  · exact le_refl nc

theorem worker_step_fire_ge_now (interval t nc : Nat) (h : nc ≤ t) :
    t ≤ (worker_step interval t nc).1 := by
  unfold worker_step
  rw [if_pos h]
  dsimp only
  split <;> omega

theorem worker_step_fire_add (interval t nc : Nat) (h : nc ≤ t) :
    nc + interval ≤ (worker_step interval t nc).1 := by
  unfold worker_step
  rw [if_pos h]
  dsimp only
  split <;> omega

theorem worker_fires_cons_fire (interval nc t : Nat) (ts : List Nat)
    (h : nc ≤ t) :
    worker_fires interval nc (t :: ts) =
      t :: worker_fires interval (worker_step interval t nc).1 ts := by
  simp only [worker_fires]
  rw [if_pos ((worker_step_fire_iff interval t nc).mpr h)]

theorem worker_fires_cons_nofire (interval nc t : Nat) (ts : List Nat)
    (h : ¬ nc ≤ t) :
    worker_fires interval nc (t :: ts) = worker_fires interval nc ts := by
  have hstep := worker_step_nofire interval t nc h
  simp [worker_fires, hstep]

/-- Every fire instant of a worker is at or after its current
`next_click`. -/
theorem worker_fires_lb (interval : Nat) :
    ∀ (ts : List Nat) (nc x : Nat), x ∈ worker_fires interval nc ts → nc ≤ x := by
  intro ts
  induction ts with
  | nil => intro nc x hx; simp [worker_fires] at hx
  | cons t ts ih =>
    intro nc x hx
    by_cases hc : nc ≤ t
    · rw [worker_fires_cons_fire interval nc t ts hc] at hx
      rcases List.mem_cons.mp hx with h1 | h2
      · omega
      · exact le_trans (worker_step_next_ge interval t nc) (ih _ _ h2)
    · rw [worker_fires_cons_nofire interval nc t ts hc] at hx
      exact ih _ _ hx

/-- The second fire of a worker is at least one full period after its
initial `next_click`. -/
theorem worker_fires_second_lb (interval : Nat) :
    ∀ (ts : List Nat) (nc : Nat), 1 < (worker_fires interval nc ts).length →
      nc + interval ≤ (worker_fires interval nc ts).getD 1 0 := by
  intro ts
  induction ts with
  | nil => intro nc h; simp [worker_fires] at h
  | cons t ts ih =>
    intro nc h
    by_cases hc : nc ≤ t
    · rw [worker_fires_cons_fire interval nc t ts hc] at h ⊢
      rw [List.getD_cons_succ]
      have h0 : 0 < (worker_fires interval (worker_step interval t nc).1 ts).length := by
        simp only [List.length_cons] at h
        omega
      rw [List.getD_eq_getElem _ _ h0]
      have hx := List.getElem_mem h0
      have hlb := worker_fires_lb interval ts (worker_step interval t nc).1 _ hx
      have hstep := worker_step_fire_add interval t nc hc
      exact le_trans hstep hlb
    · rw [worker_fires_cons_nofire interval nc t ts hc] at h ⊢
      exact ih nc h

/-- Any fire and the fire-after-next are at least one period apart:
the resynchronization policy bounds a catch-up burst at two fires per
period window. -/
theorem worker_fires_gap (interval : Nat) :
    ∀ (ts : List Nat) (nc k : Nat),
      k + 2 < (worker_fires interval nc ts).length →
      (worker_fires interval nc ts).getD k 0 + interval ≤
        (worker_fires interval nc ts).getD (k + 2) 0 := by
  intro ts
  induction ts with
  | nil => intro nc k h; simp [worker_fires] at h
  | cons t ts ih =>
    intro nc k h
    by_cases hc : nc ≤ t
    · rw [worker_fires_cons_fire interval nc t ts hc] at h ⊢
      cases k with
      | zero =>
        rw [List.getD_cons_zero, List.getD_cons_succ]
        have h2 : 1 < (worker_fires interval (worker_step interval t nc).1 ts).length := by
          simp only [List.length_cons] at h
          omega
        have hs := worker_fires_second_lb interval ts (worker_step interval t nc).1 h2
        have hg := worker_step_fire_ge_now interval t nc hc
        calc t + interval ≤ (worker_step interval t nc).1 + interval := by omega
          _ ≤ _ := hs
      | succ k =>
        rw [List.getD_cons_succ, List.getD_cons_succ]
        have h2 : k + 2 < (worker_fires interval (worker_step interval t nc).1 ts).length := by
          simp only [List.length_cons] at h
          omega
        exact ih (worker_step interval t nc).1 k h2
    · rw [worker_fires_cons_nofire interval nc t ts hc] at h ⊢
      exact ih nc k h

/-! ### Claims about the interval scheduler -/

/-- **C1, counterexample.**  The claim says `start` with
`interval_ms == 0` creates no session.  In the code the running flag,
counter reset and `start_time` stores all happen *before* the
`interval_ms == 0` guard, so a degenerate session is observably
created: `is_running()` reports true and `get_running_time()` reports
`Some`. -/
theorem C1_zero_interval_counterexample :
    (start_clicking MouseController.new MouseButton.Left 0 5).is_running = true ∧
    (start_clicking MouseController.new MouseButton.Left 0 5).start_time = some 5 ∧
    (get_running_time (start_clicking MouseController.new MouseButton.Left 0 5)
      9).isSome = true := by
  decide

/-- **C1, amended.**  For a stopped scheduler (no live workers),
`start(button, 0)` spawns no worker and `click_count()` remains 0
under any further system activity; but contrary to the claim a
degenerate session is created: the running flag is stored true,
the counter is reset and `start_time` is recorded. -/
theorem C1_zero_interval_amended (c : MouseController) (b : MouseButton)
    (now : Nat) (ts : List Nat) (hrun : c.is_running = false)
    (hh : c.handles = []) :
    (start_clicking c b 0 now).handles = [] ∧
    (start_clicking c b 0 now).click_count = 0 ∧
    (start_clicking c b 0 now).is_running = true ∧
    (start_clicking c b 0 now).start_time = some now ∧
    (run_ticks (start_clicking c b 0 now) ts).click_count = 0 := by
  rw [start_clicking_zero c b now hrun]
  refine ⟨hh, rfl, rfl, rfl, ?_⟩
  exact (run_ticks_no_handles ts
    { c with is_running := true, click_count := 0, start_time := some now } hh).1

/-- Witness for C1 (amended) at a concrete stopped controller. -/
theorem C1_zero_interval_amended_witness :
    (start_clicking MouseController.new MouseButton.Left 0 7).is_running = true ∧
    (run_ticks (start_clicking MouseController.new MouseButton.Left 0 7)
      [3, 9, 20]).click_count = 0 := by
  have h := C1_zero_interval_amended MouseController.new MouseButton.Left 7
    [3, 9, 20] rfl rfl
  exact ⟨h.2.2.1, h.2.2.2.2⟩

/-- **C2.**  On a stopped scheduler, `start_clicking(button, 0)`
stores true into the running flag, resets the counter, records
`start_time`, spawns no worker; afterwards `is_running()` is true,
`get_running_time()` is `Some`, and every further `start_clicking`
call (any button, any interval) is a no-op. -/
theorem C2_degenerate_session (c : MouseController) (b : MouseButton)
    (now now2 : Nat) (hrun : c.is_running = false) :
    (start_clicking c b 0 now).is_running = true ∧
    (start_clicking c b 0 now).click_count = 0 ∧
    (start_clicking c b 0 now).start_time = some now ∧
    (start_clicking c b 0 now).handles = c.handles ∧
    (get_running_time (start_clicking c b 0 now) now2).isSome = true ∧
    (∀ (b2 : MouseButton) (i2 now3 : Nat),
      start_clicking (start_clicking c b 0 now) b2 i2 now3 =
        start_clicking c b 0 now) := by
  rw [start_clicking_zero c b now hrun]
  refine ⟨rfl, rfl, rfl, rfl, rfl, ?_⟩
  intro b2 i2 now3
  rfl

/-- Witness for C2 at a concrete stopped controller. -/
theorem C2_degenerate_session_witness :
    (start_clicking MouseController.new MouseButton.Left 0 4).is_running = true ∧
    start_clicking (start_clicking MouseController.new MouseButton.Left 0 4)
        MouseButton.Right 50 9 =
      start_clicking MouseController.new MouseButton.Left 0 4 := by
  have h := C2_degenerate_session MouseController.new MouseButton.Left 4 10 rfl
  exact ⟨h.1, h.2.2.2.2.2 MouseButton.Right 50 9⟩

/-- **C3.**  The tier table of `start_clicking`: for `interval_ms ≥ 1`
the number of spawned workers is `thread_count interval_ms`, which is
1 for `≥ 20`, 2 for `5..19`, 4 for `2..4`, 8 for `< 2`, with the
stated boundary values. -/
theorem C3_thread_count_tiers (c : MouseController) (b : MouseButton)
    (i now : Nat) (hrun : c.is_running = false) (hi : 1 ≤ i) :
    (start_clicking c b i now).handles.length =
      c.handles.length + thread_count i ∧
    (20 ≤ i → thread_count i = 1) ∧
    (5 ≤ i → i ≤ 19 → thread_count i = 2) ∧
    (2 ≤ i → i ≤ 4 → thread_count i = 4) ∧
    (i < 2 → thread_count i = 8) ∧
    thread_count 19 = 2 ∧ thread_count 20 = 1 ∧ thread_count 4 = 4 ∧
    thread_count 5 = 2 ∧ thread_count 1 = 8 ∧ thread_count 2 = 4 := by
  refine ⟨?_, thread_count_ge20 i, thread_count_5_19 i, thread_count_2_4 i,
    thread_count_lt2 i, by decide, by decide, by decide, by decide,
    by decide, by decide⟩
  rw [start_clicking_spawn c b i now hrun (by omega)]
  simp

/-- Witness for C3 at `interval_ms = 19`. -/
theorem C3_thread_count_tiers_witness :
    (start_clicking MouseController.new MouseButton.Left 19 0).handles.length =
      MouseController.new.handles.length + thread_count 19 ∧
    thread_count 19 = 2 := by
  have h := C3_thread_count_tiers MouseController.new MouseButton.Left 19 0
    rfl (by decide)
  exact ⟨h.1, h.2.2.2.2.2.1⟩

/-- **C4, counterexample.**  The claim ends "no worker ever fires more
than once per period window".  A worker with period 10 whose
`next_click` is one full period behind (starved by the OS) fires at
instants 100 and 101 — twice inside the window `[100, 110)` of one
period length — because the advanced `next_click` equals `now`
exactly, so the strict `<` resynchronization does not engage. -/
theorem C4_once_per_period_counterexample :
    worker_fires 10 90 [100, 101] = [100, 101] ∧ 101 - 100 < 10 := by
  decide

/-- **C4, amended.**  Worker `i` of `N` is spawned with period
`interval_ms * N` and initial `next_fire = now + interval_ms * i`; an
iteration with `now ≥ next_fire` injects one click and advances
`next_fire` by the period, resynchronizing to `now + period` when the
advanced value is still behind `now`; an iteration with
`now < next_fire` does nothing.  Consequently a fire and the
fire-after-next are always at least one period apart (a worker can
fire at most twice — never an unbounded catch-up burst — within a
window of one period length). -/
theorem C4_worker_schedule_amended :
    (∀ (c : MouseController) (b : MouseButton) (i now : Nat),
      c.is_running = false → i ≠ 0 →
      (start_clicking c b i now).handles =
        c.handles ++ (List.range (thread_count i)).map (fun thread_id =>
          { button := b
            interval := i * thread_count i
            next_click := now + i * thread_id })) ∧
    (∀ interval t nc, nc ≤ t →
      worker_step interval t nc =
        (if nc + interval < t then t + interval else nc + interval, 1)) ∧
    (∀ interval t nc, ¬ nc ≤ t → worker_step interval t nc = (nc, 0)) ∧
    (∀ (interval : Nat) (ts : List Nat) (nc k : Nat),
      k + 2 < (worker_fires interval nc ts).length →
      (worker_fires interval nc ts).getD k 0 + interval ≤
        (worker_fires interval nc ts).getD (k + 2) 0) := by
  refine ⟨?_, ?_, worker_step_nofire, worker_fires_gap⟩
  · intro c b i now hrun hi
    exact start_clicking_spawn c b i now hrun hi
  · intro interval t nc h
    unfold worker_step
    rw [if_pos h]

/-- Witness for C4 (amended) at concrete inputs. -/
theorem C4_worker_schedule_amended_witness :
    (start_clicking MouseController.new MouseButton.Left 5 100).handles =
      MouseController.new.handles ++
        (List.range (thread_count 5)).map (fun thread_id =>
          { button := MouseButton.Left
            interval := 5 * thread_count 5
            next_click := 100 + 5 * thread_id }) ∧
    worker_step 10 100 90 = (if 90 + 10 < 100 then 100 + 10 else 90 + 10, 1) ∧
    worker_step 10 50 90 = (90, 0) ∧
    (worker_fires 10 0 [0, 10, 20]).getD 0 0 + 10 ≤
      (worker_fires 10 0 [0, 10, 20]).getD 2 0 := by
  have h := C4_worker_schedule_amended
  exact ⟨h.1 MouseController.new MouseButton.Left 5 100 rfl (by decide),
    h.2.1 10 100 90 (by decide), h.2.2.1 10 50 90 (by decide),
    h.2.2.2 10 [0, 10, 20] 0 0 (by decide)⟩

/-- **C5.**  `stop_clicking` clears the running flag and drains
(joins) every worker handle; it is idempotent, and after it returns
the click counter never increases under any further system activity. -/
theorem C5_stop_clears_and_joins (c : MouseController) (ts : List Nat) :
    (stop_clicking c).is_running = false ∧
    (stop_clicking c).handles = [] ∧
    (stop_clicking c).click_count = c.click_count ∧
    stop_clicking (stop_clicking c) = stop_clicking c ∧
    (run_ticks (stop_clicking c) ts).click_count = c.click_count := by
  refine ⟨rfl, rfl, rfl, rfl, ?_⟩
  exact (run_ticks_no_handles ts (stop_clicking c) rfl).1

/-- **C10.**  `get_running_time` is `None` exactly when the scheduler
was never started and otherwise the time since `start_time`;
`get_cps` is 0 when never started or when the elapsed time is 0, and
otherwise `click_count` divided by the elapsed seconds. -/
theorem C10_accessors (c : MouseController) (now : Nat) :
    (c.start_time = none →
      get_running_time c now = none ∧ get_cps c now = 0) ∧
    (∀ s, c.start_time = some s →
      get_running_time c now = some (now - s) ∧
      (now - s = 0 → get_cps c now = 0) ∧
      (0 < now - s →
        get_cps c now =
          (get_click_count c : ℚ) / (((now - s : Nat) : ℚ) / 1000))) := by
  constructor
  · intro h
    refine ⟨by simp [get_running_time, h], ?_⟩
    simp [get_cps, get_running_time, h]
  · intro s hs
    refine ⟨by simp [get_running_time, hs], ?_, ?_⟩
    · intro h0
      simp [get_cps, get_running_time, hs, h0]
    · intro hpos
      have h1 : (0 : ℚ) < ((now - s : Nat) : ℚ) := by exact_mod_cast hpos
      have h2 : (0 : ℚ) < ((now - s : Nat) : ℚ) / 1000 := by positivity
      simp only [get_cps, get_running_time, hs, Option.map_some']
      rw [if_pos h2]

/-- Witness for C10: a never-started controller and a running one with
2 ms elapsed and 7 clicks. -/
theorem C10_accessors_witness :
    get_cps MouseController.new 5 = 0 ∧
    get_cps { MouseController.new with start_time := some 2, click_count := 7 } 4 =
      ((get_click_count { MouseController.new with
          start_time := some 2, click_count := 7 } : ℚ) /
        (((4 - 2 : Nat) : ℚ) / 1000)) := by
  refine ⟨(C10_accessors MouseController.new 5).1 rfl |>.2, ?_⟩
  exact ((C10_accessors { MouseController.new with
    start_time := some 2, click_count := 7 } 4).2 2 rfl).2.2 (by decide)

/-! ### Hotkey detector lemmas -/

/-- A poll that sees the binding physically up while the edge flag is
low emits nothing and keeps the edge low, in either mode. -/
theorem check_events_not_pressed (m : HotkeyManager) (hold_mode : Bool)
    (now : Nat) (vk : Nat → Bool)
    (hedge : m.is_key_pressed = false)
    (hnp : config_pressed m.current_hotkey vk = false) :
    (check_events m hold_mode now vk).2 = none ∧
    (check_events m hold_mode now vk).1.is_key_pressed = false ∧
    (check_events m hold_mode now vk).1.current_hotkey = m.current_hotkey ∧
    (check_events m hold_mode now vk).1.toggle_hotkey_id = m.toggle_hotkey_id := by
  unfold check_events check_key_hold_state is_key_currently_pressed
  cases hold_mode with
  | true =>
    simp only [if_true]
    split
    · exact ⟨rfl, hedge, rfl, rfl⟩
    · simp [hnp, hedge]
  | false =>
    simp only [Bool.false_eq_true, if_false]
    simp [hnp, hedge]
    split <;> simp [hnp, hedge]

/-- In toggle mode a poll made while the edge flag is already high
never emits anything (debounce); while the key stays physically down
the edge flag also stays high. -/
theorem check_events_toggle_edge_high (m : HotkeyManager) (now : Nat)
    (vk : Nat → Bool) (hedge : m.is_key_pressed = true) :
    (check_events m false now vk).2 = none ∧
    (check_events m false now vk).1.current_hotkey = m.current_hotkey ∧
    (check_events m false now vk).1.toggle_hotkey_id = m.toggle_hotkey_id ∧
    (check_events m false now vk).1.pending_events = [] ∧
    (config_pressed m.current_hotkey vk = true →
      (check_events m false now vk).1.is_key_pressed = true) := by
  unfold check_events is_key_currently_pressed
  simp only [Bool.false_eq_true, if_false]
  cases hcp : config_pressed m.current_hotkey vk <;>
    simp [hedge, hcp] <;> split <;> simp [hedge, hcp]

/-- In toggle mode a poll made while the key is physically up emits
nothing, whatever the edge flag holds. -/
theorem check_events_toggle_key_up (m : HotkeyManager) (now : Nat)
    (vk : Nat → Bool) (hnp : config_pressed m.current_hotkey vk = false) :
    (check_events m false now vk).2 = none ∧
    (check_events m false now vk).1.current_hotkey = m.current_hotkey ∧
    (check_events m false now vk).1.toggle_hotkey_id = m.toggle_hotkey_id ∧
    (check_events m false now vk).1.pending_events = [] := by
  unfold check_events is_key_currently_pressed
  simp only [Bool.false_eq_true, if_false]
  simp [hnp]
  split
  · split <;> exact ⟨rfl, rfl, rfl, rfl⟩
  · exact ⟨rfl, rfl, rfl, rfl⟩

/-- In toggle mode, a poll made on a fresh rising edge (edge flag low,
key physically down) either emits exactly one `Toggle` and raises the
edge flag, or emits nothing and leaves the edge flag low; and it
certainly emits `Toggle` when the registered binding's event is in the
queue. -/
theorem check_events_toggle_edge_low (m : HotkeyManager) (now : Nat)
    (vk : Nat → Bool) (hedge : m.is_key_pressed = false)
    (hp : config_pressed m.current_hotkey vk = true) :
    (check_events m false now vk).1.current_hotkey = m.current_hotkey ∧
    (check_events m false now vk).1.toggle_hotkey_id = m.toggle_hotkey_id ∧
    (check_events m false now vk).1.pending_events = [] ∧
    (((check_events m false now vk).2 = some HotkeyAction.Toggle ∧
      (check_events m false now vk).1.is_key_pressed = true) ∨
     ((check_events m false now vk).2 = none ∧
      (check_events m false now vk).1.is_key_pressed = false)) ∧
    (m.pending_events.any (fun id => m.toggle_hotkey_id == some id) = true →
      (check_events m false now vk).2 = some HotkeyAction.Toggle) := by
  unfold check_events is_key_currently_pressed
  simp only [Bool.false_eq_true, if_false]
  cases het : m.pending_events.any (fun id => m.toggle_hotkey_id == some id) <;>
    simp [hedge, hp]
  split <;> simp [hedge, hp]

theorem run_polls_cons (m : HotkeyManager) (p : PollInput) (ps : List PollInput) :
    run_polls m (p :: ps) =
      ((run_polls (do_poll m p).1 ps).1,
        (do_poll m p).2.toList ++ (run_polls (do_poll m p).1 ps).2) := rfl

theorem toggle_total_none (acts : List HotkeyAction) :
    toggle_total ((none : Option HotkeyAction).toList ++ acts) =
      toggle_total acts := by
  simp [toggle_total]

theorem toggle_total_toggle (acts : List HotkeyAction) :
    toggle_total ((some HotkeyAction.Toggle).toList ++ acts) =
      toggle_total acts + 1 := by
  simp [toggle_total, List.countP_cons]

theorem run_polls_append (l1 : List PollInput) :
    ∀ (m : HotkeyManager) (l2 : List PollInput),
      run_polls m (l1 ++ l2) =
        ((run_polls (run_polls m l1).1 l2).1,
         (run_polls m l1).2 ++ (run_polls (run_polls m l1).1 l2).2) := by
  induction l1 with
  | nil => intro m l2; simp [run_polls]
  | cons p l1 ih =>
    intro m l2
    rw [List.cons_append, run_polls_cons, run_polls_cons]
    rw [ih (do_poll m p).1 l2]
    simp [run_polls_cons, List.append_assoc]

/-- Any sequence of polls made while the binding is physically up and
the edge flag is low emits nothing, in either mode. -/
theorem run_polls_not_pressed :
    ∀ (ps : List PollInput) (m : HotkeyManager),
      m.is_key_pressed = false →
      (∀ p ∈ ps, config_pressed m.current_hotkey p.vk = false) →
      (run_polls m ps).2 = [] ∧
      (run_polls m ps).1.is_key_pressed = false ∧
      (run_polls m ps).1.current_hotkey = m.current_hotkey := by
  intro ps
  induction ps with
  | nil => exact fun m h1 h2 => ⟨rfl, h1, rfl⟩
  | cons p ps ih =>
    intro m h1 h2
    have hc := check_events_not_pressed
      { m with pending_events := m.pending_events ++ p.events }
      p.hold_mode p.now p.vk h1 (h2 p (List.mem_cons_self p ps))
    have hrec := ih (do_poll m p).1 hc.2.1 (fun q hq => by
      rw [show (do_poll m p).1.current_hotkey = m.current_hotkey from hc.2.2.1]
      exact h2 q (List.mem_cons_of_mem p hq))
    rw [run_polls_cons]
    refine ⟨?_, hrec.2.1, hrec.2.2.trans hc.2.2.1⟩
    rw [show (do_poll m p).2 = none from hc.1]
    simpa using hrec.1

/-- Any sequence of toggle-mode polls made while the binding is
physically up emits nothing, whatever the edge flag holds. -/
theorem run_polls_toggle_key_up :
    ∀ (ps : List PollInput) (m : HotkeyManager),
      (∀ p ∈ ps, p.hold_mode = false) →
      (∀ p ∈ ps, config_pressed m.current_hotkey p.vk = false) →
      (run_polls m ps).2 = [] ∧
      (run_polls m ps).1.current_hotkey = m.current_hotkey := by
  intro ps
  induction ps with
  | nil => exact fun m _ _ => ⟨rfl, rfl⟩
  | cons p ps ih =>
    intro m hm h2
    have hdp : do_poll m p =
        check_events { m with pending_events := m.pending_events ++ p.events }
          false p.now p.vk := by
      unfold do_poll
      rw [hm p (List.mem_cons_self p ps)]
    have hku := check_events_toggle_key_up
      { m with pending_events := m.pending_events ++ p.events } p.now p.vk
      (h2 p (List.mem_cons_self p ps))
    have hrec := ih (do_poll m p).1
      (fun q hq => hm q (List.mem_cons_of_mem p hq))
      (fun q hq => by
        rw [show (do_poll m p).1.current_hotkey = m.current_hotkey from
          hdp ▸ hku.2.1]
        exact h2 q (List.mem_cons_of_mem p hq))
    rw [run_polls_cons]
    refine ⟨?_, hrec.2.trans (hdp ▸ hku.2.1)⟩
    rw [show (do_poll m p).2 = none from hdp ▸ hku.1]
    simpa using hrec.1

/-- Core single-press invariant for toggle mode: over polls made while
the key is physically down, with the queue initially drained, a high
edge flag yields no `Toggle` at all, and a low edge flag yields at
most one `Toggle` — exactly one when the registered binding's event is
delivered at some poll. -/
theorem run_polls_toggle_key_down :
    ∀ (ps : List PollInput) (m : HotkeyManager),
      (∀ p ∈ ps, p.hold_mode = false) →
      (∀ p ∈ ps, config_pressed m.current_hotkey p.vk = true) →
      m.pending_events = [] →
      (run_polls m ps).1.current_hotkey = m.current_hotkey ∧
      (m.is_key_pressed = true →
        toggle_total (run_polls m ps).2 = 0 ∧
        (run_polls m ps).1.is_key_pressed = true) ∧
      (m.is_key_pressed = false →
        toggle_total (run_polls m ps).2 ≤ 1 ∧
        ((∃ p ∈ ps, p.events.any
            (fun id => m.toggle_hotkey_id == some id) = true) →
          toggle_total (run_polls m ps).2 = 1)) := by
  intro ps
  induction ps with
  | nil =>
    intro m _ _ _
    refine ⟨rfl, fun h => ⟨rfl, h⟩,
      fun _ => ⟨by simp [run_polls, toggle_total], ?_⟩⟩
    rintro ⟨p, hp, _⟩
    exact absurd hp (List.not_mem_nil p)
  | cons p ps ih =>
    intro m hm hdn hpend
    have hpmem := List.mem_cons_self p ps
    have hdp : do_poll m p =
        check_events { m with pending_events := m.pending_events ++ p.events }
          false p.now p.vk := by
      unfold do_poll
      rw [hm p hpmem]
    rw [run_polls_cons, hdp]
    rcases Bool.eq_false_or_eq_true m.is_key_pressed with hk | hk
    · have hhigh := check_events_toggle_edge_high
        { m with pending_events := m.pending_events ++ p.events }
        p.now p.vk hk
      have hcur :
          (check_events { m with pending_events := m.pending_events ++ p.events }
            false p.now p.vk).1.current_hotkey = m.current_hotkey := hhigh.2.1
      have hrec := ih
        (check_events { m with pending_events := m.pending_events ++ p.events }
          false p.now p.vk).1
        (fun q hq => hm q (List.mem_cons_of_mem p hq))
        (fun q hq => by rw [hcur]; exact hdn q (List.mem_cons_of_mem p hq))
        hhigh.2.2.2.1
      have hedge1 := hhigh.2.2.2.2 (hdn p hpmem)
      refine ⟨hrec.1.trans hcur, fun _ => ⟨?_, (hrec.2.1 hedge1).2⟩,
        fun hf => Bool.noConfusion (hk.symm.trans hf)⟩
      rw [hhigh.1, toggle_total_none]
      exact (hrec.2.1 hedge1).1
    · have hlow := check_events_toggle_edge_low
        { m with pending_events := m.pending_events ++ p.events }
        p.now p.vk hk (hdn p hpmem)
      have hcur :
          (check_events { m with pending_events := m.pending_events ++ p.events }
            false p.now p.vk).1.current_hotkey = m.current_hotkey := hlow.1
      have hid :
          (check_events { m with pending_events := m.pending_events ++ p.events }
            false p.now p.vk).1.toggle_hotkey_id = m.toggle_hotkey_id :=
        hlow.2.1
      have hrec := ih
        (check_events { m with pending_events := m.pending_events ++ p.events }
          false p.now p.vk).1
        (fun q hq => hm q (List.mem_cons_of_mem p hq))
        (fun q hq => by rw [hcur]; exact hdn q (List.mem_cons_of_mem p hq))
        hlow.2.2.1
      refine ⟨hrec.1.trans hcur,
        fun ht => Bool.noConfusion (hk.symm.trans ht), fun _ => ?_⟩
      rcases hlow.2.2.2.1 with ⟨htog, hedge1⟩ | ⟨hnone, hedge0⟩
      · rw [htog, toggle_total_toggle, (hrec.2.1 hedge1).1]
        exact ⟨by omega, fun _ => rfl⟩
      · rw [hnone, toggle_total_none]
        refine ⟨(hrec.2.2 hedge0).1, ?_⟩
        rintro ⟨q, hq, hqany⟩
        rcases List.mem_cons.mp hq with hq1 | hq2
        · subst hq1
          have hany :
              ({ m with pending_events := m.pending_events ++ q.events }
                : HotkeyManager).pending_events.any
                (fun id =>
                  ({ m with pending_events := m.pending_events ++ q.events }
                    : HotkeyManager).toggle_hotkey_id == some id) = true := by
            simpa [hpend] using hqany
          exact absurd (hlow.2.2.2.2 hany) (by rw [hnone]; simp)
        · refine (hrec.2.2 hedge0).2 ⟨q, hq2, ?_⟩
          rw [hid]
          exact hqany

/-! ### Claims about the hotkey detector -/

/-- **C6, counterexample.**  After a successful bind of `F1`, a failed
rebind to `F2` (OS registration rejected) returns the descriptive
error and clears the registration — but `current_hotkey` keeps the old
binding, and the direct key-state polling paths read it, so a hold-mode
poll with the old key physically down still emits `HoldStart`: the
detector does not "simply never fire". -/
theorem C6_rebind_conflict_counterexample :
    (update_hotkeys
      { toggle_hotkey := some 1, toggle_hotkey_id := some 1
        is_key_pressed := false
        current_hotkey := some { modifiers := [], key := "F1" }
        last_poll_time := 0, pending_events := [] }
      { modifiers := [], key := "F2" }
      { register_ok := false, new_id := 2 }).2 =
      Except.error "热键 F2 已被占用，请尝试其他组合\n提示：可能与系统快捷键或其他应用冲突" ∧
    (update_hotkeys
      { toggle_hotkey := some 1, toggle_hotkey_id := some 1
        is_key_pressed := false
        current_hotkey := some { modifiers := [], key := "F1" }
        last_poll_time := 0, pending_events := [] }
      { modifiers := [], key := "F2" }
      { register_ok := false, new_id := 2 }).1.toggle_hotkey = none ∧
    (update_hotkeys
      { toggle_hotkey := some 1, toggle_hotkey_id := some 1
        is_key_pressed := false
        current_hotkey := some { modifiers := [], key := "F1" }
        last_poll_time := 0, pending_events := [] }
      { modifiers := [], key := "F2" }
      { register_ok := false, new_id := 2 }).1.toggle_hotkey_id = none ∧
    (do_poll (update_hotkeys
      { toggle_hotkey := some 1, toggle_hotkey_id := some 1
        is_key_pressed := false
        current_hotkey := some { modifiers := [], key := "F1" }
        last_poll_time := 0, pending_events := [] }
      { modifiers := [], key := "F2" }
      { register_ok := false, new_id := 2 }).1
      { hold_mode := true, now := 100, events := [], vk := fun _ => true }).2 =
      some HotkeyAction.HoldStart := by
  exact ⟨rfl, rfl, rfl, rfl⟩

/-- **C6, amended.**  A rebind whose OS registration is rejected
returns the descriptive conflict error carrying the human-readable
binding description, leaves no binding registered (both the handle and
the id are cleared) and resets the runtime key state; the *stored*
binding description is kept unchanged though, so detection only
"never fires" when no binding had ever been stored — for a detector
with a previously stored binding, the key-state polling paths still
consult it. -/
theorem C6_rebind_conflict_amended (m : HotkeyManager) (cfg : HotkeyConfig)
    (env : UpdateEnv) (mods : Modifiers) (code : Code) (ps : List PollInput)
    (hparse : to_global_hotkey cfg = .ok (mods, code))
    (hreg : env.register_ok = false) :
    (update_hotkeys m cfg env).2 =
      .error ("热键 " ++ to_display_string cfg ++
        " 已被占用，请尝试其他组合\n提示：可能与系统快捷键或其他应用冲突") ∧
    (update_hotkeys m cfg env).1.toggle_hotkey = none ∧
    (update_hotkeys m cfg env).1.toggle_hotkey_id = none ∧
    (update_hotkeys m cfg env).1.is_key_pressed = false ∧
    (update_hotkeys m cfg env).1.pending_events = [] ∧
    (update_hotkeys m cfg env).1.current_hotkey = m.current_hotkey ∧
    (m.current_hotkey = none →
      (run_polls (update_hotkeys m cfg env).1 ps).2 = []) := by
  have hu : update_hotkeys m cfg env =
      (reset_key_state { m with toggle_hotkey := none, toggle_hotkey_id := none },
        .error ("热键 " ++ to_display_string cfg ++
          " 已被占用，请尝试其他组合\n提示：可能与系统快捷键或其他应用冲突")) := by
    unfold update_hotkeys
    rw [hparse]
    dsimp only
    rw [if_neg (by simp [hreg])]
  rw [hu]
  refine ⟨rfl, rfl, rfl, rfl, rfl, rfl, ?_⟩
  intro hnone
  refine (run_polls_not_pressed ps _ rfl ?_).1
  intro p hp
  have hcur : (reset_key_state
      { m with toggle_hotkey := none, toggle_hotkey_id := none }).current_hotkey
      = none := hnone
  rw [hcur]
  rfl

/-- Witness for C6 (amended): a fresh (never bound) detector, a failed
registration of `F2`, then a poll — no action fires. -/
theorem C6_rebind_conflict_amended_witness :
    (update_hotkeys HotkeyManager.new { modifiers := [], key := "F2" }
      { register_ok := false, new_id := 2 }).2 =
      .error ("热键 " ++ to_display_string { modifiers := [], key := "F2" } ++
        " 已被占用，请尝试其他组合\n提示：可能与系统快捷键或其他应用冲突") ∧
    (run_polls (update_hotkeys HotkeyManager.new { modifiers := [], key := "F2" }
      { register_ok := false, new_id := 2 }).1
      [{ hold_mode := true, now := 100, events := [7], vk := fun _ => true }]).2
      = [] := by
  have h := C6_rebind_conflict_amended HotkeyManager.new
    { modifiers := [], key := "F2" } { register_ok := false, new_id := 2 }
    {} Code.F2
    [{ hold_mode := true, now := 100, events := [7], vk := fun _ => true }]
    rfl rfl
  exact ⟨h.1, h.2.2.2.2.2.2 rfl⟩

/-- **C7, counterexample.**  A single press-and-release of the bound
key whose polls all happen after the release: the press's event (id 1)
is delivered at the first poll, but the confirmation query finds the
key already up, so the event is discarded and no later poll fires —
zero `Toggle` actions for the press, contradicting "exactly one ...
never zero". -/
theorem C7_toggle_zero_counterexample :
    (run_polls
      { toggle_hotkey := some 1, toggle_hotkey_id := some 1
        is_key_pressed := false
        current_hotkey := some { modifiers := [], key := "F1" }
        last_poll_time := 0, pending_events := [] }
      [{ hold_mode := false, now := 10, events := [1], vk := fun _ => false },
       { hold_mode := false, now := 100, events := [], vk := fun _ => false }]).2
      = [] := by
  rfl

/-- **C7, amended.**  In toggle mode, over any poll sequence covering
a single press-and-release (some polls while the key is physically
down, then the remainder after release), starting with the edge flag
low and the queue drained: at most one `Toggle` is emitted, and
exactly one whenever the binding's event is delivered at a poll that
still sees the key down — but zero is possible when every poll misses
the physical press.  The event path emits `Toggle` only on receipt of
the binding's event with the key confirmed down and the edge flag not
already high, raising the edge flag on emission, and a poll made with
the edge flag high never emits a `Toggle`. -/
theorem C7_toggle_single_press_amended (m : HotkeyManager)
    (psd psu : List PollInput)
    (hmode : ∀ p ∈ psd ++ psu, p.hold_mode = false)
    (hdown : ∀ p ∈ psd, config_pressed m.current_hotkey p.vk = true)
    (hup : ∀ p ∈ psu, config_pressed m.current_hotkey p.vk = false)
    (hedge : m.is_key_pressed = false)
    (hpend : m.pending_events = []) :
    toggle_total (run_polls m (psd ++ psu)).2 ≤ 1 ∧
    ((∃ p ∈ psd, p.events.any
        (fun id => m.toggle_hotkey_id == some id) = true) →
      toggle_total (run_polls m (psd ++ psu)).2 = 1) ∧
    (∀ (m2 : HotkeyManager) (now : Nat) (vk : Nat → Bool),
      m2.is_key_pressed = true → (check_events m2 false now vk).2 = none) ∧
    (∀ (m2 : HotkeyManager) (now : Nat) (vk : Nat → Bool),
      m2.is_key_pressed = false →
      config_pressed m2.current_hotkey vk = true →
      m2.pending_events.any (fun id => m2.toggle_hotkey_id == some id) = true →
      (check_events m2 false now vk).2 = some HotkeyAction.Toggle ∧
      (check_events m2 false now vk).1.is_key_pressed = true) := by
  have hd := run_polls_toggle_key_down psd m
    (fun p hp => hmode p (List.mem_append_left psu hp))
    hdown hpend
  have hu2 := run_polls_toggle_key_up psu (run_polls m psd).1
    (fun p hp => hmode p (List.mem_append_right psd hp))
    (fun p hp => by rw [hd.1]; exact hup p hp)
  rw [run_polls_append]
  rw [hu2.1, List.append_nil]
  refine ⟨(hd.2.2 hedge).1, (hd.2.2 hedge).2, ?_, ?_⟩
  · intro m2 now vk h2
    exact (check_events_toggle_edge_high m2 now vk h2).1
  · intro m2 now vk h2 hcp hany
    have hlow := check_events_toggle_edge_low m2 now vk h2 hcp
    have htog := hlow.2.2.2.2 hany
    rcases hlow.2.2.2.1 with ⟨_, hkey⟩ | ⟨hnone, _⟩
    · exact ⟨htog, hkey⟩
    · rw [htog] at hnone
      exact absurd hnone (by simp)

/-- Witness for C7 (amended): one poll during the press with the event
delivered, one poll after release — exactly one `Toggle`. -/
theorem C7_toggle_single_press_amended_witness :
    toggle_total (run_polls
      { toggle_hotkey := some 1, toggle_hotkey_id := some 1
        is_key_pressed := false
        current_hotkey := some { modifiers := [], key := "F1" }
        last_poll_time := 0, pending_events := [] }
      ([{ hold_mode := false, now := 10, events := [1], vk := fun _ => true }] ++
       [{ hold_mode := false, now := 200, events := [], vk := fun _ => false }])).2
      = 1 := by
  have h := C7_toggle_single_press_amended
    { toggle_hotkey := some 1, toggle_hotkey_id := some 1
      is_key_pressed := false
      current_hotkey := some { modifiers := [], key := "F1" }
      last_poll_time := 0, pending_events := [] }
    [{ hold_mode := false, now := 10, events := [1], vk := fun _ => true }]
    [{ hold_mode := false, now := 200, events := [], vk := fun _ => false }]
    (by
      intro p hp
      rcases List.mem_append.mp hp with h1 | h1 <;>
        rw [List.mem_singleton.mp h1])
    (by
      intro p hp
      rw [List.mem_singleton.mp hp]
      rfl)
    (by
      intro p hp
      rw [List.mem_singleton.mp hp]
      rfl)
    rfl rfl
  exact h.2.1 ⟨_, List.mem_singleton_self _, rfl⟩

/-- **C8.**  Hold-mode polling: a poll within 10ms of the previous one
is a strict no-op returning `none`; an effective poll records the poll
instant, drains the queue, queries the physical key+modifier state and
emits `HoldStart` exactly on a rising edge, `HoldStop` exactly on a
falling edge, and nothing when the tracked state is unchanged (the
tracked flag always ends equal to the physical state). -/
theorem C8_hold_mode_poll (m : HotkeyManager) (now : Nat) (vk : Nat → Bool) :
    (now - m.last_poll_time < 10 → check_events m true now vk = (m, none)) ∧
    (10 ≤ now - m.last_poll_time →
      (check_events m true now vk).1.pending_events = [] ∧
      (check_events m true now vk).1.last_poll_time = now ∧
      (check_events m true now vk).1.is_key_pressed =
        config_pressed m.current_hotkey vk ∧
      ((check_events m true now vk).2 = some HotkeyAction.HoldStart ↔
        (config_pressed m.current_hotkey vk = true ∧
          m.is_key_pressed = false)) ∧
      ((check_events m true now vk).2 = some HotkeyAction.HoldStop ↔
        (config_pressed m.current_hotkey vk = false ∧
          m.is_key_pressed = true)) ∧
      ((check_events m true now vk).2 = none ↔
        config_pressed m.current_hotkey vk = m.is_key_pressed)) := by
  constructor
  · intro h
    unfold check_events
    rw [if_pos rfl, if_pos h]
  · intro h
    unfold check_events check_key_hold_state is_key_currently_pressed
    rw [if_pos rfl, if_neg (by omega)]
    rcases Bool.eq_false_or_eq_true (config_pressed m.current_hotkey vk) with
      hcp | hcp <;>
      rcases Bool.eq_false_or_eq_true m.is_key_pressed with hk | hk <;>
        simp [hcp, hk]

/-- Witness for C8: a rate-limited no-op poll, then an effective poll
that sees a rising edge. -/
theorem C8_hold_mode_poll_witness :
    check_events
      { toggle_hotkey := some 1, toggle_hotkey_id := some 1
        is_key_pressed := false
        current_hotkey := some { modifiers := [], key := "F1" }
        last_poll_time := 0, pending_events := [] } true 5 (fun _ => true) =
      ({ toggle_hotkey := some 1, toggle_hotkey_id := some 1
         is_key_pressed := false
         current_hotkey := some { modifiers := [], key := "F1" }
         last_poll_time := 0, pending_events := [] }, none) ∧
    (check_events
      { toggle_hotkey := some 1, toggle_hotkey_id := some 1
        is_key_pressed := false
        current_hotkey := some { modifiers := [], key := "F1" }
        last_poll_time := 0, pending_events := [] } true 20 (fun _ => true)).2 =
      some HotkeyAction.HoldStart := by
  refine ⟨(C8_hold_mode_poll
    { toggle_hotkey := some 1, toggle_hotkey_id := some 1
      is_key_pressed := false
      current_hotkey := some { modifiers := [], key := "F1" }
      last_poll_time := 0, pending_events := [] } 5 (fun _ => true)).1
      (by decide), ?_⟩
  exact ((C8_hold_mode_poll
    { toggle_hotkey := some 1, toggle_hotkey_id := some 1
      is_key_pressed := false
      current_hotkey := some { modifiers := [], key := "F1" }
      last_poll_time := 0, pending_events := [] } 20 (fun _ => true)).2
      (by decide)).2.2.2.1.mpr ⟨rfl, rfl⟩

/-- **C9.**  Reconfiguration resets the detector's runtime state:
`reset_key_state` (called on every trigger-mode change) clears the
edge flag and drains the queue, and `update_hotkeys` (every binding
change) does the same on every path; afterwards, polls during which
the newly stored binding is not physically down — in particular any
later release of the previously bound key — emit no action at all
(no spurious `HoldStop` or `Toggle`). -/
theorem C9_reconfigure_resets_state (m : HotkeyManager) (cfg : HotkeyConfig)
    (env : UpdateEnv) (ps : List PollInput)
    (hups : ∀ p ∈ ps,
      config_pressed (update_hotkeys m cfg env).1.current_hotkey p.vk = false) :
    (reset_key_state m).is_key_pressed = false ∧
    (reset_key_state m).pending_events = [] ∧
    (update_hotkeys m cfg env).1.is_key_pressed = false ∧
    (update_hotkeys m cfg env).1.pending_events = [] ∧
    (run_polls (update_hotkeys m cfg env).1 ps).2 = [] := by
  have hfields : (update_hotkeys m cfg env).1.is_key_pressed = false ∧
      (update_hotkeys m cfg env).1.pending_events = [] := by
    unfold update_hotkeys
    cases to_global_hotkey cfg with
    | error e => exact ⟨rfl, rfl⟩
    | ok pr =>
      dsimp only
      split
      · exact ⟨rfl, rfl⟩
      · exact ⟨rfl, rfl⟩
  exact ⟨rfl, rfl, hfields.1, hfields.2,
    (run_polls_not_pressed ps _ hfields.1 hups).1⟩

/-- Witness for C9: a detector holding a stale pressed edge and a
queued event is rebound from `F1` to `F2`; a later poll that sees `F2`
up (whatever happened to `F1`) emits nothing. -/
theorem C9_reconfigure_resets_state_witness :
    (update_hotkeys
      { toggle_hotkey := some 1, toggle_hotkey_id := some 1
        is_key_pressed := true
        current_hotkey := some { modifiers := [], key := "F1" }
        last_poll_time := 0, pending_events := [1, 1] }
      { modifiers := [], key := "F2" }
      { register_ok := true, new_id := 2 }).1.is_key_pressed = false ∧
    (run_polls (update_hotkeys
      { toggle_hotkey := some 1, toggle_hotkey_id := some 1
        is_key_pressed := true
        current_hotkey := some { modifiers := [], key := "F1" }
        last_poll_time := 0, pending_events := [1, 1] }
      { modifiers := [], key := "F2" }
      { register_ok := true, new_id := 2 }).1
      [{ hold_mode := true, now := 100, events := [], vk := fun _ => false }]).2
      = [] := by
  have h := C9_reconfigure_resets_state
    { toggle_hotkey := some 1, toggle_hotkey_id := some 1
      is_key_pressed := true
      current_hotkey := some { modifiers := [], key := "F1" }
      last_poll_time := 0, pending_events := [1, 1] }
    { modifiers := [], key := "F2" }
    { register_ok := true, new_id := 2 }
    [{ hold_mode := true, now := 100, events := [], vk := fun _ => false }]
    (by
      intro p hp
      rw [List.mem_singleton.mp hp]
      rfl)
  exact ⟨h.2.2.1, h.2.2.2.2⟩
